import Mathlib

/-!
Verification development for the fishbone-diagram editor
(`src/hooks/useFishboneData.js`, `src/utils/excelUtils.js`,
`src/components/FishboneCanvas.jsx`).

The JavaScript tree of `Category → Cause → Subcause` records is embedded
shallowly: JS objects become structures, ids are opaque strings, numeric
coordinates are modelled as `Int` (the claims under study never depend on
fractional coordinate values), and the random id generator
(`uuidv4()` / `Math.random().toString(36)`) is modelled by an explicit
fresh-id supply: a counter for the importer, and action-supplied id/offset
arguments for the reducer.
-/

namespace Fishbone

/-- A subcause node: `{ id, name, x, y, comment }` (useFishboneData.js). -/
structure Subcause where
  id : String
  name : String
  x : Int
  y : Int
  comment : String
  deriving DecidableEq, Repr

/-- A cause node: `{ id, name, x, y, comment, subcauses }` (useFishboneData.js). -/
structure Cause where
  id : String
  name : String
  x : Int
  y : Int
  comment : String
  subcauses : List Subcause
  deriving DecidableEq, Repr

/-- A category node: `{ id, name, x, y, spineX, causes }`.  `spineX` is an
`Option` because categories built by `parseExcelData` have no `spineX`
field, while the template and `ADD_CATEGORY` set one. -/
structure Category where
  id : String
  name : String
  x : Int
  y : Int
  spineX : Option Int
  causes : List Cause
  deriving DecidableEq, Repr

/-- The reducer state `{ problemStatement, categories, selectedNode, dragMode }`. -/
structure DiagramState where
  problemStatement : String
  categories : List Category
  selectedNode : Option String
  dragMode : Bool
  deriving DecidableEq, Repr

/-! ## Serialization Bridge: export (excelUtils.js, `exportToExcel`)

Only the row-building part of `exportToExcel` is modelled; the XLSX
workbook/file plumbing is external library code.  A row has the six
columns written by the source. -/

/-- One tabular row with the columns written by `exportToExcel`. -/
structure Row where
  Category : String
  Cause : String
  Subcause : String
  Comments : String
  X : Int
  Y : Int
  deriving DecidableEq, Repr

/-- The row pushed for one subcause (excelUtils.js lines 40-49).
`subcause.comment || ''` is the identity on total strings. -/
def subcauseRow (catName causeName : String) (sc : Subcause) : Row :=
  { Category := catName, Cause := causeName, Subcause := sc.name,
    Comments := sc.comment, X := sc.x, Y := sc.y }

/-- The rows pushed for one cause: its own row then its subcause rows
(excelUtils.js lines 29-50). -/
def causeRows (catName : String) (c : Cause) : List Row :=
  { Category := catName, Cause := c.name, Subcause := "",
    Comments := c.comment, X := c.x, Y := c.y }
    :: c.subcauses.map (subcauseRow catName c.name)

/-- The rows pushed for one category: its own row then its causes' rows
(excelUtils.js lines 17-51). -/
def categoryRows (cat : Category) : List Row :=
  { Category := cat.name, Cause := "", Subcause := "",
    Comments := "", X := cat.x, Y := cat.y }
    :: cat.causes.flatMap (causeRows cat.name)

/-- The full row list built by `exportToExcel` (excelUtils.js lines 3-51):
the problem-statement sentinel row, then every category block in order. -/
def exportRows (s : DiagramState) : List Row :=
  { Category := "PROBLEM STATEMENT", Cause := s.problemStatement,
    Subcause := "", Comments := "", X := 800, Y := 250 }
    :: s.categories.flatMap categoryRows

/-! ## Serialization Bridge: import (excelUtils.js, `parseExcelData`)

`generateId()` returns `Math.random().toString(36).substr(2, 9)`; it is
modelled as a counter-indexed opaque string (its value is never inspected
by the program).  The `Map<name, Category>` with in-place object mutation
is modelled as an insertion-ordered list updated at the first (hence, by
construction, unique) name match. -/

/-- Model of `generateId()`: the `n`-th fresh id handed out during a parse. -/
def freshId (n : Nat) : String := "id-" ++ toString n

/-- The subcause object built for a row carrying a Subcause value
(excelUtils.js lines 149-155). -/
def mkSubcause (n : Nat) (row : Row) : Subcause :=
  { id := freshId n, name := row.Subcause, x := row.X, y := row.Y,
    comment := row.Comments }

/-- The cause object built when a row's Cause has no match
(excelUtils.js lines 136-143): its comment is the row's Comments only
when the row carries no Subcause. -/
def mkCause (n : Nat) (row : Row) : Cause :=
  { id := freshId n, name := row.Cause, x := row.X, y := row.Y,
    comment := if row.Subcause = "" then row.Comments else "",
    subcauses := [] }

/-- The category object built when a row's Category name is new
(excelUtils.js lines 119-127); no `spineX` field is created. -/
def mkCategory (n : Nat) (row : Row) : Category :=
  { id := freshId n, name := row.Category, x := row.X, y := row.Y,
    spineX := none, causes := [] }

/-- Lines 147-159: once the cause is found or created, a Subcause row
appends a new subcause (consuming one id); otherwise the Comments column
back-fills the cause comment when the cause has none. -/
def applyRowToCause (row : Row) (n : Nat) (c : Cause) : Cause × Nat :=
  if row.Subcause = "" then
    (if row.Comments ≠ "" ∧ c.comment = "" then { c with comment := row.Comments } else c, n)
  else
    ({ c with subcauses := c.subcauses ++ [mkSubcause n row] }, n + 1)

/-- Lines 132-159: `category.causes.find(c => c.name === causeName)`,
creating and appending the cause when absent.  The first name match is
updated, exactly as the JS `find` + in-place mutation does. -/
def findOrCreateCause (row : Row) (n : Nat) : List Cause → List Cause × Nat
  | [] =>
      let c0 := mkCause n row
      let r := applyRowToCause row (n + 1) c0
      ([r.1], r.2)
  | c :: cs =>
      if c.name = row.Cause then
        let r := applyRowToCause row n c
        (r.1 :: cs, r.2)
      else
        let r := findOrCreateCause row n cs
        (c :: r.1, r.2)

/-- Update of the (unique) category whose name matches the row's Category:
models `categories.get(categoryName)` plus in-place mutation of the found
object. -/
def updateFirstCat (row : Row) (n : Nat) : List Category → List Category × Nat
  | [] => ([], n)
  | cat :: cats =>
      if cat.name = row.Category then
        let r := findOrCreateCause row n cat.causes
        ({ cat with causes := r.1 } :: cats, r.2)
      else
        let r := updateFirstCat row n cats
        (cat :: r.1, r.2)

/-- Accumulator of the `jsonData.forEach` loop in `parseExcelData`. -/
structure ParseAcc where
  problemStatement : String
  categories : List Category
  nextId : Nat
  deriving DecidableEq, Repr

/-- One iteration of the `forEach` body (excelUtils.js lines 101-161). -/
def parseRow (acc : ParseAcc) (row : Row) : ParseAcc :=
  if row.Category = "PROBLEM STATEMENT" then
    { acc with problemStatement :=
        if row.Cause = "" then "Problem Statement" else row.Cause }
  else if row.Category = "" then acc
  else
    let ensured :=
      if acc.categories.any (fun c => c.name == row.Category) then
        (acc.categories, acc.nextId)
      else
        (acc.categories ++ [mkCategory acc.nextId row], acc.nextId + 1)
    if row.Cause = "" then
      { acc with categories := ensured.1, nextId := ensured.2 }
    else
      let r := updateFirstCat row ensured.2 ensured.1
      { acc with categories := r.1, nextId := r.2 }

/-- `parseExcelData` (excelUtils.js lines 97-169): fold the rows, then
assemble the replacement state with `selectedNode: null, dragMode: false`. -/
def parseExcelData (rows : List Row) : DiagramState :=
  let acc := rows.foldl parseRow
    { problemStatement := "Problem Statement", categories := [], nextId := 0 }
  { problemStatement := acc.problemStatement, categories := acc.categories,
    selectedNode := none, dragMode := false }

/-! ## Node Store & Mutation Engine (useFishboneData.js)

`uuidv4()` calls inside the reducer are modelled by fresh-id arguments
carried on the actions; the `Math.random()` position jitter is modelled
by integer offset arguments. -/

/-- The module-level template list (useFishboneData.js lines 7-14).  In the
source each `id:` is `uuidv4()` evaluated ONCE, when the module is
initialized, so every later read of `defaultCategories` sees the same six
id values; they are modelled as fixed opaque strings. -/
def defaultCategories : List Category :=
  [ { id := "tpl-0", name := "People", x := 200, y := 100, spineX := some 250, causes := [] },
    { id := "tpl-1", name := "Process", x := 400, y := 100, spineX := some 350, causes := [] },
    { id := "tpl-2", name := "Materials", x := 600, y := 100, spineX := some 450, causes := [] },
    { id := "tpl-3", name := "Machines", x := 200, y := 400, spineX := some 550, causes := [] },
    { id := "tpl-4", name := "Measurements", x := 400, y := 400, spineX := some 650, causes := [] },
    { id := "tpl-5", name := "Environment", x := 600, y := 400, spineX := some 750, causes := [] } ]

/-- `initialState` (useFishboneData.js lines 16-21). -/
def initialState : DiagramState :=
  { problemStatement := "Problem Statement", categories := [],
    selectedNode := none, dragMode := false }

/-- Partial update object for `UPDATE_CATEGORY` (`{ ...cat, ...updates }`):
`none` models an absent key. -/
structure CategoryUpdates where
  name : Option String := none
  x : Option Int := none
  y : Option Int := none
  spineX : Option Int := none
  deriving DecidableEq, Repr

/-- Partial update object for `UPDATE_CAUSE`. -/
structure CauseUpdates where
  name : Option String := none
  x : Option Int := none
  y : Option Int := none
  comment : Option String := none
  deriving DecidableEq, Repr

/-- Partial update object for `UPDATE_SUBCAUSE`. -/
structure SubcauseUpdates where
  name : Option String := none
  x : Option Int := none
  y : Option Int := none
  comment : Option String := none
  deriving DecidableEq, Repr

/-- JS object spread `{ ...cat, ...updates }` for a category. -/
def Category.applyUpdates (c : Category) (u : CategoryUpdates) : Category :=
  { c with
    name := u.name.getD c.name
    x := u.x.getD c.x
    y := u.y.getD c.y
    spineX := match u.spineX with | some v => some v | none => c.spineX }

/-- JS object spread `{ ...cause, ...updates }` for a cause. -/
def Cause.applyUpdates (c : Cause) (u : CauseUpdates) : Cause :=
  { c with
    name := u.name.getD c.name
    x := u.x.getD c.x
    y := u.y.getD c.y
    comment := u.comment.getD c.comment }

/-- JS object spread `{ ...subcause, ...updates }` for a subcause. -/
def Subcause.applyUpdates (c : Subcause) (u : SubcauseUpdates) : Subcause :=
  { c with
    name := u.name.getD c.name
    x := u.x.getD c.x
    y := u.y.getD c.y
    comment := u.comment.getD c.comment }

/-- The action set of `fishboneReducer`.  `freshId` arguments model the
`uuidv4()` calls, `rx`/`ry` the `Math.random()`-derived offsets. -/
inductive Action where
  | setProblemStatement (text : String)
  | clearDiagram
  | loadTemplate
  | addCategory (freshId : String) (rx ry : Int)
  | updateCategory (id : String) (updates : CategoryUpdates)
  | deleteCategory (id : String)
  | addCause (categoryId : String) (freshId : String) (rx ry : Int)
  | updateCause (categoryId causeId : String) (updates : CauseUpdates)
  | deleteCause (categoryId causeId : String)
  | addSubcause (categoryId causeId : String) (freshId : String) (rx ry : Int)
  | updateSubcause (categoryId causeId subcauseId : String) (updates : SubcauseUpdates)
  | deleteSubcause (categoryId causeId subcauseId : String)
  | setSelectedNode (payload : Option String)
  | setDragMode (payload : Bool)
  | loadFromData (payload : DiagramState)
  deriving Repr

/-- `fishboneReducer` (useFishboneData.js lines 23-196).  `LOAD_FROM_DATA`
spreads a payload carrying all four state fields, so it replaces the whole
state. -/
def fishboneReducer (state : DiagramState) (action : Action) : DiagramState :=
  match action with
  | .setProblemStatement t => { state with problemStatement := t }
  | .clearDiagram => initialState
  | .loadTemplate => { state with categories := defaultCategories }
  | .addCategory fid rx ry =>
      { state with categories := state.categories ++
          [{ id := fid, name := "New Category", x := 300 + rx, y := 200 + ry,
             spineX := some (300 + 100 * (state.categories.length : Int)),
             causes := [] }] }
  | .updateCategory i u =>
      { state with categories := state.categories.map fun c =>
          if c.id = i then c.applyUpdates u else c }
  | .deleteCategory i =>
      { state with categories := state.categories.filter fun c => c.id != i }
  | .addCause cid fid rx ry =>
      { state with categories := state.categories.map fun c =>
          if c.id = cid then
            { c with causes := c.causes ++
                [{ id := fid, name := "New Cause", x := c.x + rx, y := c.y + ry,
                   comment := "", subcauses := [] }] }
          else c }
  | .updateCause cid ki u =>
      { state with categories := state.categories.map fun c =>
          if c.id = cid then
            { c with causes := c.causes.map fun k =>
                if k.id = ki then k.applyUpdates u else k }
          else c }
  | .deleteCause cid ki =>
      { state with categories := state.categories.map fun c =>
          if c.id = cid then
            { c with causes := c.causes.filter fun k => k.id != ki }
          else c }
  | .addSubcause cid ki fid rx ry =>
      { state with categories := state.categories.map fun c =>
          if c.id = cid then
            { c with causes := c.causes.map fun k =>
                if k.id = ki then
                  { k with subcauses := k.subcauses ++
                      [{ id := fid, name := "New Subcause", x := k.x + rx,
                         y := k.y + ry, comment := "" }] }
                else k }
          else c }
  | .updateSubcause cid ki si u =>
      { state with categories := state.categories.map fun c =>
          if c.id = cid then
            { c with causes := c.causes.map fun k =>
                if k.id = ki then
                  { k with subcauses := k.subcauses.map fun sc =>
                      if sc.id = si then sc.applyUpdates u else sc }
                else k }
          else c }
  | .deleteSubcause cid ki si =>
      { state with categories := state.categories.map fun c =>
          if c.id = cid then
            { c with causes := c.causes.map fun k =>
                if k.id = ki then
                  { k with subcauses := k.subcauses.filter fun sc => sc.id != si }
                else k }
          else c }
  | .setSelectedNode p => { state with selectedNode := p }
  | .setDragMode p => { state with dragMode := p }
  | .loadFromData p => p

/-! ## Import boundary (excelUtils.js `importFromExcel`,
FishboneCanvas.jsx/Sidebar `handleFileSelect`)

The `FileReader` / `XLSX.read` byte-level parsing is external library
code; a selected file is modelled by whether that external stage yields a
row list (`sheet rows`) or throws (`unreadable`, covering both an
unreadable file and a malformed sheet). -/

/-- A file handed to the importer, as seen after the external XLSX stage. -/
inductive ExcelFile where
  | unreadable
  | sheet (rows : List Row)
  deriving Repr

/-- `importFromExcel`: resolves with `parseExcelData` of the sheet's rows,
rejects when reading/parsing throws (excelUtils.js lines 68-95). -/
def importFromExcel : ExcelFile → Except String DiagramState
  | .unreadable => .error "Failed to read file"
  | .sheet rows => .ok (parseExcelData rows)

/-- The alert text shown by `handleFileSelect` on a failed import. -/
def importErrorMessage : String :=
  "Error importing file. Please check the format and try again."

/-- `handleFileSelect` (Sidebar, lines 415-428 of the canvas source file):
dispatches `LOAD_FROM_DATA` on success; on failure shows one alert and
dispatches nothing.  Returns the resulting store state and the optional
user-visible error notification. -/
def handleFileSelect (state : DiagramState) (file : Option ExcelFile) :
    DiagramState × Option String :=
  match file with
  | none => (state, none)
  | some f =>
      match importFromExcel f with
      | .ok data => (fishboneReducer state (.loadFromData data), none)
      | .error _ => (state, some importErrorMessage)

/-! ## Spatial Layout Contract: spine connection points

The interactive spine-point drag handler of the enhanced canvas is not
among the available sources (the `handleMouseMove` present covers only
category/cause/subcause node drags), so it is modelled from the spec. -/

/-- Canvas width fixed in FishboneCanvas.jsx. -/
def canvasWidth : Int := 1200

/-- Modelled from the spec: the lower bound of the valid spine range.  The
spine drawn by the canvas runs from `x = 50` to `x = canvasWidth - 200`;
the spec fixes the valid range as derived from the canvas width. -/
def minSpineX : Int := 50

/-- Modelled from the spec: the upper bound of the valid spine range. -/
def maxSpineX : Int := canvasWidth - 200

/-- Modelled from the spec: dragging a category's spine connection point.
The handler for this drag is missing from the sources; per the spec it
"constrains movement to one degree of freedom (horizontal only) and clamps
the resulting value into a fixed valid range [minSpineX, maxSpineX]";
values outside the range are clamped, never rejected.  The vertical input
coordinate is accepted and ignored. -/
def dragSpinePoint (c : Category) (inputX inputY : Int) : Category :=
  { c with spineX := some (max minSpineX (min inputX maxSpineX)) }

/-! ## Serialization Bridge, extended variant

The repository README documents the enhanced export format
(`Category, Cause, Subcause, Comments, X, Y, SpineX`); the exporter
emitting it is not among the available sources (the `exportToExcel`
present writes the six basic columns), so it is modelled from the spec. -/

/-- One row of the extended tabular format: the basic columns plus
`SpineX` (`none` models a blank cell). -/
structure RowExt where
  Category : String
  Cause : String
  Subcause : String
  Comments : String
  X : Int
  Y : Int
  SpineX : Option Int
  deriving DecidableEq, Repr

/-- Modelled from the spec: default spine position of the category at list
index `i` when its `spineX` is absent, `baseOffset + index * increment`;
the base/increment pair follows the `ADD_CATEGORY` formula
`300 + categories.length * 100`. -/
def defaultSpineX (i : Nat) : Int := 300 + 100 * (i : Int)

/-- Modelled from the spec: the extended-format row emitted for the
category at index `i`; `SpineX` is populated on every category row. -/
def categoryRowExt (i : Nat) (cat : Category) : RowExt :=
  { Category := cat.name, Cause := "", Subcause := "", Comments := "",
    X := cat.x, Y := cat.y,
    SpineX := some (cat.spineX.getD (defaultSpineX i)) }

/-- Modelled from the spec: extended-format rows for one cause; `SpineX`
is blank on cause and subcause rows. -/
def causeRowsExt (catName : String) (c : Cause) : List RowExt :=
  { Category := catName, Cause := c.name, Subcause := "",
    Comments := c.comment, X := c.x, Y := c.y, SpineX := none }
    :: c.subcauses.map fun sc =>
      { Category := catName, Cause := c.name, Subcause := sc.name,
        Comments := sc.comment, X := sc.x, Y := sc.y, SpineX := none }

/-- Modelled from the spec: the extended-variant exporter.  Same row order
as the basic exporter; the sentinel problem-statement row and the
cause/subcause rows leave `SpineX` blank, each category row carries it. -/
def exportRowsExt (s : DiagramState) : List RowExt :=
  { Category := "PROBLEM STATEMENT", Cause := s.problemStatement,
    Subcause := "", Comments := "", X := 800, Y := 250, SpineX := none }
    :: s.categories.enum.flatMap fun p =>
      categoryRowExt p.1 p.2 :: p.2.causes.flatMap (causeRowsExt p.2.name)

/-! ## Derived notions used by the properties -/

/-- Identity-erasing view of a subcause: name, position, comment. -/
def Subcause.shape (sc : Subcause) : String × Int × Int × String :=
  (sc.name, sc.x, sc.y, sc.comment)

/-- Identity-erasing view of a cause, including its subcause list in
order. -/
def Cause.shape (c : Cause) : String × Int × Int × String × List (String × Int × Int × String) :=
  (c.name, c.x, c.y, c.comment, c.subcauses.map Subcause.shape)

/-- Identity-erasing view of a category, including its cause list in
order (`spineX` is not part of the view: the basic tabular format does
not carry it). -/
def Category.shape (c : Category) :
    String × Int × Int × List (String × Int × Int × String × List (String × Int × Int × String)) :=
  (c.name, c.x, c.y, c.causes.map Cause.shape)

/-- Number of entities (the cause itself plus its subcauses). -/
def Cause.entityCount (c : Cause) : Nat := 1 + c.subcauses.length

/-- Number of entities in a category subtree. -/
def Category.entityCount (c : Category) : Nat :=
  1 + (c.causes.map Cause.entityCount).sum

/-- Total number of entities in the diagram. -/
def DiagramState.entityCount (s : DiagramState) : Nat :=
  (s.categories.map Category.entityCount).sum

/-- Total number of subcause entities across a cause list. -/
def causesSubTotal (ks : List Cause) : Nat :=
  (ks.map fun k => k.subcauses.length).sum

/-- Total number of subcause entities across a category list. -/
def catsSubTotal (cs : List Category) : Nat :=
  (cs.map fun c => causesSubTotal c.causes).sum

/-- Every id in a cause subtree, the cause's own first. -/
def Cause.ids (c : Cause) : List String := c.id :: c.subcauses.map Subcause.id

/-- Every id in a category subtree, the category's own first. -/
def Category.ids (c : Category) : List String := c.id :: c.causes.flatMap Cause.ids

/-- Every id in the diagram, in tree order. -/
def allIds (s : DiagramState) : List String := s.categories.flatMap Category.ids

/-- States reachable from `initialState` by `ADD_CATEGORY` / `ADD_CAUSE` /
`ADD_SUBCAUSE`, with the id generator modelled as supplying ids fresh for
the current state. -/
inductive Reachable : DiagramState → Prop where
  | init : Reachable initialState
  | addCategory {s : DiagramState} {fid : String} {rx ry : Int} :
      Reachable s → fid ∉ allIds s →
      Reachable (fishboneReducer s (.addCategory fid rx ry))
  | addCause {s : DiagramState} {cid fid : String} {rx ry : Int} :
      Reachable s → fid ∉ allIds s →
      Reachable (fishboneReducer s (.addCause cid fid rx ry))
  | addSubcause {s : DiagramState} {cid ki fid : String} {rx ry : Int} :
      Reachable s → fid ∉ allIds s →
      Reachable (fishboneReducer s (.addSubcause cid ki fid rx ry))

/-- The subcauses re-created by the importer for an exported subcause
list, with the fresh ids the counter hands out from `n` on. -/
def importSubs : Nat → List Subcause → List Subcause
  | _, [] => []
  | n, sc :: rest =>
      { id := freshId n, name := sc.name, x := sc.x, y := sc.y,
        comment := sc.comment } :: importSubs (n + 1) rest

/-- Ids consumed by the importer for one exported cause block. -/
def Cause.idCount (c : Cause) : Nat := 1 + c.subcauses.length

/-- The cause re-created by the importer for an exported cause block. -/
def importCause (n : Nat) (c : Cause) : Cause :=
  { id := freshId n, name := c.name, x := c.x, y := c.y,
    comment := c.comment, subcauses := importSubs (n + 1) c.subcauses }

/-- The causes re-created by the importer for an exported cause list. -/
def importCauses : Nat → List Cause → List Cause
  | _, [] => []
  | n, c :: rest => importCause n c :: importCauses (n + c.idCount) rest

/-- Ids consumed by the importer for one exported category block. -/
def Category.idCount (c : Category) : Nat :=
  1 + (c.causes.map Cause.idCount).sum

/-- The category re-created by the importer for an exported category
block (its `spineX` field is absent). -/
def importCategory (n : Nat) (c : Category) : Category :=
  { id := freshId n, name := c.name, x := c.x, y := c.y,
    spineX := none, causes := importCauses (n + 1) c.causes }

/-- The categories re-created by the importer for an exported category
list. -/
def importCats : Nat → List Category → List Category
  | _, [] => []
  | n, c :: rest => importCategory n c :: importCats (n + c.idCount) rest

/-! ## Concrete fixtures used by witnesses and counterexamples -/

/-- A sample subcause. -/
def sampleSub : Subcause :=
  { id := "s1", name := "NoOnboarding", x := 10, y := 11, comment := "high" }

/-- A sample cause with one subcause. -/
def sampleCause1 : Cause :=
  { id := "k1", name := "Training", x := 20, y := 21, comment := "root", subcauses := [sampleSub] }

/-- A second sample cause. -/
def sampleCause2 : Cause :=
  { id := "k2", name := "Morale", x := 30, y := 31, comment := "", subcauses := [] }

/-- A sample category with two causes. -/
def sampleCatA : Category :=
  { id := "cA", name := "People", x := 40, y := 41, spineX := some 250,
    causes := [sampleCause1, sampleCause2] }

/-- A second sample category with no causes. -/
def sampleCatB : Category :=
  { id := "cB", name := "Process", x := 50, y := 51, spineX := none, causes := [] }

/-- A sample diagram state. -/
def sampleState : DiagramState :=
  { problemStatement := "Why did X fail?", categories := [sampleCatA, sampleCatB],
    selectedNode := none, dragMode := false }

/-- A diagram whose problem statement is empty: its cause names are
(vacuously) unique per category, yet the export/import round trip does
not restore it. -/
def emptyPsState : DiagramState :=
  { problemStatement := "", categories := [], selectedNode := none, dragMode := false }

/-- A sentinel row whose Cause cell is empty. -/
def sentinelEmptyRow : Row :=
  { Category := "PROBLEM STATEMENT", Cause := "", Subcause := "",
    Comments := "", X := 800, Y := 250 }

/-! ## Generic list helpers -/

/-- A map that fixes every element of a list is the identity on it. -/
theorem map_eq_self_of {α : Type} (l : List α) (f : α → α)
    (h : ∀ x ∈ l, f x = x) : l.map f = l := by
  conv_rhs => rw [← List.map_id l]
  exact List.map_congr_left h

/-- Inserting a fresh element anywhere in a duplicate-free list keeps it
duplicate-free. -/
theorem nodup_insert_middle {α : Type} {x : α} {X Y : List α}
    (h : (X ++ Y).Nodup) (hx : x ∉ X ++ Y) : (X ++ x :: Y).Nodup :=
  (List.perm_middle).nodup_iff.mpr (List.nodup_cons.mpr ⟨hx, h⟩)

/-! ## Claim C2: LoadTemplate and static template ids -/

/-- C2.  The claim says every LOAD_TEMPLATE application generates new
unique category ids, disjoint from those of any earlier application.  The
code does the opposite: `defaultCategories` is a module-level constant
whose `uuidv4()` ids are computed once at module initialization, so every
application installs the very same six categories, with identical ids. -/
theorem loadTemplate_reuses_static_ids :
    (∀ s : DiagramState, (fishboneReducer s .loadTemplate).categories = defaultCategories) ∧
    (∀ s t : DiagramState,
      (fishboneReducer s .loadTemplate).categories.map Category.id =
      (fishboneReducer t .loadTemplate).categories.map Category.id) :=
  ⟨fun _ => rfl, fun _ _ => rfl⟩

/-! ## Claim C4: unknown-id UpdateCategory is a value-preserving no-op -/

/-- C4.  `UPDATE_CATEGORY` with an id matching no category leaves the
categories list value-equal to the prior one (the reducer is a total
function; the unmatched map touches no element). -/
theorem updateCategory_unknown_id_noop (s : DiagramState) (i : String)
    (u : CategoryUpdates) (h : ∀ c ∈ s.categories, c.id ≠ i) :
    (fishboneReducer s (.updateCategory i u)).categories = s.categories := by
  simp only [fishboneReducer]
  exact map_eq_self_of _ _ fun c hc => if_neg (h c hc)

/-- Witness for C4 at a concrete state and a concrete absent id. -/
theorem updateCategory_unknown_id_noop_witness :
    (∀ c ∈ sampleState.categories, c.id ≠ "missing") ∧
    (fishboneReducer sampleState (.updateCategory "missing" {})).categories =
      sampleState.categories :=
  ⟨by decide, updateCategory_unknown_id_noop sampleState "missing" {} (by decide)⟩

/-! ## Claim C7: a failed import changes nothing and alerts once -/

/-- C7.  When `importFromExcel` rejects, `handleFileSelect` dispatches no
command: the store state after the failed import is exactly the state
before it, and the failure surfaces as the single alert message. -/
theorem import_failure_is_allornothing (s : DiagramState) (f : ExcelFile)
    (e : String) (h : importFromExcel f = .error e) :
    handleFileSelect s (some f) = (s, some importErrorMessage) := by
  cases f with
  | unreadable => simp [handleFileSelect, importFromExcel]
  | sheet rows => simp [importFromExcel] at h

/-- Witness for C7 at a concrete state and an unreadable file. -/
theorem import_failure_is_allornothing_witness :
    importFromExcel .unreadable = .error "Failed to read file" ∧
    handleFileSelect sampleState (some .unreadable) =
      (sampleState, some importErrorMessage) :=
  ⟨rfl, import_failure_is_allornothing sampleState .unreadable "Failed to read file" rfl⟩

/-! ## Claim C3: spine-point dragging clamps to the fixed range -/

/-- C3.  Dragging a spine connection point changes only the horizontal
spine coordinate (position, name, id, children are untouched and the
vertical input is ignored), and the stored value always lies in
`[minSpineX, maxSpineX]`: inputs below the minimum store the minimum,
inputs above the maximum store the maximum, in-range inputs are stored
as given — never rejected. -/
theorem spine_drag_clamps (c : Category) (x y : Int) :
    (dragSpinePoint c x y).x = c.x ∧ (dragSpinePoint c x y).y = c.y ∧
    (dragSpinePoint c x y).name = c.name ∧ (dragSpinePoint c x y).id = c.id ∧
    (dragSpinePoint c x y).causes = c.causes ∧
    (dragSpinePoint c x y).spineX = some (max minSpineX (min x maxSpineX)) ∧
    minSpineX ≤ max minSpineX (min x maxSpineX) ∧
    max minSpineX (min x maxSpineX) ≤ maxSpineX ∧
    (x < minSpineX → (dragSpinePoint c x y).spineX = some minSpineX) ∧
    (maxSpineX < x → (dragSpinePoint c x y).spineX = some maxSpineX) ∧
    (minSpineX ≤ x → x ≤ maxSpineX → (dragSpinePoint c x y).spineX = some x) := by
  refine ⟨rfl, rfl, rfl, rfl, rfl, rfl, ?_, ?_, ?_, ?_, ?_⟩ <;>
    simp only [dragSpinePoint, minSpineX, maxSpineX, canvasWidth, Option.some_inj] <;>
    intros <;> omega

/-- Witness for C3: an input far beyond the maximum stores the maximum. -/
theorem spine_drag_clamps_witness :
    maxSpineX < 5000 ∧ (dragSpinePoint sampleCatA 5000 7).spineX = some maxSpineX := by
  have h := spine_drag_clamps sampleCatA 5000 7
  exact ⟨by decide, h.2.2.2.2.2.2.2.2.2.1 (by decide)⟩

/-! ## Claim C8: extended export columns -/

/-- C8.  Every row emitted by the extended-variant export carries the
seven-column record (`RowExt`), and the row emitted for each category —
the `i`-th category yields `categoryRowExt i` — has its SpineX cell
populated. -/
theorem exportExt_spinex_on_category_rows (s : DiagramState) :
    ∀ p ∈ s.categories.enum,
      categoryRowExt p.1 p.2 ∈ exportRowsExt s ∧
      (categoryRowExt p.1 p.2).SpineX.isSome = true := by
  intro p hp
  constructor
  · unfold exportRowsExt
    exact List.mem_cons_of_mem _ (List.mem_flatMap.mpr ⟨p, hp, List.mem_cons_self _ _⟩)
  · simp [categoryRowExt]

/-- Witness for C8 at a concrete state and its first category. -/
theorem exportExt_spinex_on_category_rows_witness :
    ((0, sampleCatA) ∈ sampleState.categories.enum) ∧
    categoryRowExt 0 sampleCatA ∈ exportRowsExt sampleState ∧
    (categoryRowExt 0 sampleCatA).SpineX.isSome = true :=
  ⟨by decide, exportExt_spinex_on_category_rows sampleState (0, sampleCatA) (by decide)⟩

/-! ## Claim C5: deleting a node removes exactly its subtree -/

/-- Summing cause subtree sizes counts the causes plus their subcauses. -/
theorem sum_cause_entityCount (ks : List Cause) :
    (ks.map Cause.entityCount).sum =
      ks.length + (ks.map fun k => k.subcauses.length).sum := by
  induction ks with
  | nil => simp
  | cons k ks ih =>
      simp only [List.map_cons, List.sum_cons, List.length_cons, Cause.entityCount, ih]
      omega

/-- A category subtree holds one entity plus one per cause plus one per
subcause. -/
theorem category_entityCount_eq (c : Category) :
    c.entityCount =
      c.causes.length + (c.causes.map fun k => k.subcauses.length).sum + 1 := by
  unfold Category.entityCount
  rw [sum_cause_entityCount]
  omega

/-- Filtering away one well-identified element of a list. -/
theorem filter_out_unique {α : Type} (p : α → Bool) (L1 L2 : List α) (a : α)
    (h1 : ∀ x ∈ L1, p x = true) (h2 : ∀ x ∈ L2, p x = true) (ha : p a = false) :
    (L1 ++ a :: L2).filter p = L1 ++ L2 := by
  rw [List.filter_append, List.filter_cons, List.filter_eq_self.mpr h1,
    List.filter_eq_self.mpr h2]
  simp [ha]

/-- C5.  With distinct ids, `DELETE_CATEGORY` removes exactly the
category plus its N causes plus its M subcauses (entity count drops by
N+M+1 and no category with the deleted id survives), and `DELETE_CAUSE`
removes exactly the cause plus its K subcauses. -/
theorem delete_removes_exact_subtree (s : DiagramState) (cat : Category) (k : Cause)
    (hcat : cat ∈ s.categories) (hnc : (s.categories.map Category.id).Nodup)
    (hk : k ∈ cat.causes) (hnk : (cat.causes.map Cause.id).Nodup) :
    (s.entityCount =
      (fishboneReducer s (.deleteCategory cat.id)).entityCount +
        (cat.causes.length + (cat.causes.map fun c => c.subcauses.length).sum + 1)) ∧
    (∀ c ∈ (fishboneReducer s (.deleteCategory cat.id)).categories, c.id ≠ cat.id) ∧
    (s.entityCount =
      (fishboneReducer s (.deleteCause cat.id k.id)).entityCount +
        (k.subcauses.length + 1)) := by
  obtain ⟨L1, L2, heq⟩ := List.append_of_mem hcat
  have hnc' := hnc
  rw [heq] at hnc'
  simp only [List.map_append, List.map_cons, List.nodup_append, List.nodup_cons] at hnc'
  have hL1 : ∀ c ∈ L1, c.id ≠ cat.id := by
    intro c hc habs
    exact hnc'.2.2 (List.mem_map_of_mem Category.id hc) (by simp [habs])
  have hL2 : ∀ c ∈ L2, c.id ≠ cat.id := by
    intro c hc habs
    exact hnc'.2.1.1 (habs ▸ List.mem_map_of_mem Category.id hc)
  have hfilter :
      (s.categories.filter fun c => c.id != cat.id) = L1 ++ L2 := by
    rw [heq]
    refine filter_out_unique _ L1 L2 cat ?_ ?_ ?_
    · intro x hx; simpa using hL1 x hx
    · intro x hx; simpa using hL2 x hx
    · simp
  obtain ⟨K1, K2, heqk⟩ := List.append_of_mem hk
  have hnk' := hnk
  rw [heqk] at hnk'
  simp only [List.map_append, List.map_cons, List.nodup_append, List.nodup_cons] at hnk'
  have hK1 : ∀ c ∈ K1, c.id ≠ k.id := by
    intro c hc habs
    exact hnk'.2.2 (List.mem_map_of_mem Cause.id hc) (by simp [habs])
  have hK2 : ∀ c ∈ K2, c.id ≠ k.id := by
    intro c hc habs
    exact hnk'.2.1.1 (habs ▸ List.mem_map_of_mem Cause.id hc)
  have hfilterk : (cat.causes.filter fun c => c.id != k.id) = K1 ++ K2 := by
    rw [heqk]
    refine filter_out_unique _ K1 K2 k ?_ ?_ ?_
    · intro x hx; simpa using hK1 x hx
    · intro x hx; simpa using hK2 x hx
    · simp
  refine ⟨?_, ?_, ?_⟩
  · simp only [fishboneReducer, DiagramState.entityCount, hfilter]
    rw [heq]
    simp only [List.map_append, List.map_cons, List.sum_append, List.sum_cons]
    have := category_entityCount_eq cat
    omega
  · intro c hc
    simp only [fishboneReducer, hfilter] at hc
    rcases List.mem_append.mp hc with h | h
    · exact hL1 c h
    · exact hL2 c h
  · simp only [fishboneReducer, DiagramState.entityCount]
    rw [heq]
    simp only [List.map_append, List.map_cons, List.sum_append, List.sum_cons]
    have hmap1 : L1.map (fun c => if c.id = cat.id then
        { c with causes := c.causes.filter fun q => q.id != k.id } else c) = L1 :=
      map_eq_self_of _ _ fun c hc => if_neg (hL1 c hc)
    have hmap2 : L2.map (fun c => if c.id = cat.id then
        { c with causes := c.causes.filter fun q => q.id != k.id } else c) = L2 :=
      map_eq_self_of _ _ fun c hc => if_neg (hL2 c hc)
    rw [hmap1, hmap2]
    have hcount : ({ cat with causes := cat.causes.filter fun q => q.id != k.id} :
        Category).entityCount + (k.subcauses.length + 1) = cat.entityCount := by
      simp only [Category.entityCount, hfilterk]
      rw [heqk]
      simp only [List.map_append, List.map_cons, List.sum_append, List.sum_cons,
        Cause.entityCount]
      omega
    simp only [eq_self_iff_true, if_true] at *
    omega

/-- Witness for C5: deleting the two-cause, one-subcause sample category
drops the count by 4; deleting the one-subcause sample cause drops it
by 2. -/
theorem delete_removes_exact_subtree_witness :
    (sampleCatA ∈ sampleState.categories) ∧
    (sampleState.entityCount =
      (fishboneReducer sampleState (.deleteCategory sampleCatA.id)).entityCount +
        (sampleCatA.causes.length +
          (sampleCatA.causes.map fun c => c.subcauses.length).sum + 1)) ∧
    (sampleState.entityCount =
      (fishboneReducer sampleState
          (.deleteCause sampleCatA.id sampleCause1.id)).entityCount +
        (sampleCause1.subcauses.length + 1)) := by
  have h := delete_removes_exact_subtree sampleState sampleCatA sampleCause1
    (by decide) (by decide) (by decide) (by decide)
  exact ⟨by decide, h.1, h.2.2⟩

/-! ## Claim C10: empty problem statement imports as the default -/

/-- How one parsed row affects the problem statement: a sentinel row
stores its Cause cell (falling back to the default on an empty cell);
any other row leaves it alone. -/
theorem parseRow_problemStatement (acc : ParseAcc) (r : Row) :
    (parseRow acc r).problemStatement =
      if r.Category = "PROBLEM STATEMENT" then
        (if r.Cause = "" then "Problem Statement" else r.Cause)
      else acc.problemStatement := by
  unfold parseRow
  by_cases h1 : r.Category = "PROBLEM STATEMENT"
  · by_cases h3 : r.Cause = "" <;> simp [h1, h3]
  · by_cases h2 : r.Category = ""
    · simp [h1, h2]
    · by_cases h3 : r.Cause = "" <;> simp [h1, h2, h3]

/-- Folding any row list whose sentinel rows all have an empty Cause cell
never moves the problem statement off the default. -/
theorem foldl_parseRow_default_ps (rows : List Row) :
    ∀ acc : ParseAcc,
      (∀ r ∈ rows, r.Category = "PROBLEM STATEMENT" → r.Cause = "") →
      acc.problemStatement = "Problem Statement" →
      (rows.foldl parseRow acc).problemStatement = "Problem Statement" := by
  induction rows with
  | nil => intro acc _ hacc; simpa using hacc
  | cons r rest ih =>
      intro acc hrows hacc
      rw [List.foldl_cons]
      refine ih _ (fun q hq => hrows q (List.mem_cons_of_mem _ hq)) ?_
      rw [parseRow_problemStatement]
      by_cases h1 : r.Category = "PROBLEM STATEMENT"
      · simp [h1, hrows r (List.mem_cons_self _ _) h1]
      · simpa [h1] using hacc

/-- Every row of a cause block carries that category's name. -/
theorem mem_causeRows_Category (cn : String) (k : Cause) (r : Row)
    (h : r ∈ causeRows cn k) : r.Category = cn := by
  simp only [causeRows, List.mem_cons, List.mem_map] at h
  rcases h with rfl | ⟨sc, _, rfl⟩
  · rfl
  · rfl

/-- Every row of a category block carries that category's name. -/
theorem mem_categoryRows_Category (cat : Category) (r : Row)
    (h : r ∈ categoryRows cat) : r.Category = cat.name := by
  simp only [categoryRows, List.mem_cons, List.mem_flatMap] at h
  rcases h with rfl | ⟨k, _, hk⟩
  · rfl
  · exact mem_causeRows_Category cat.name k r hk

/-- C10.  If every sentinel row of an imported row set has an empty (or,
in the sheet, missing) Cause cell, the imported problem statement is the
literal default "Problem Statement", never the empty string; consequently
a diagram exported with an empty problem statement (and no category named
like the sentinel) imports with the default statement. -/
theorem import_empty_ps_defaults :
    (∀ rows : List Row,
      (∀ r ∈ rows, r.Category = "PROBLEM STATEMENT" → r.Cause = "") →
      (parseExcelData rows).problemStatement = "Problem Statement") ∧
    (∀ s : DiagramState, s.problemStatement = "" →
      (∀ c ∈ s.categories, c.name ≠ "PROBLEM STATEMENT") →
      (parseExcelData (exportRows s)).problemStatement = "Problem Statement") := by
  constructor
  · intro rows hrows
    unfold parseExcelData
    exact foldl_parseRow_default_ps rows _ hrows rfl
  · intro s hps hnames
    unfold parseExcelData
    refine foldl_parseRow_default_ps _ _ ?_ rfl
    intro r hr hsent
    simp only [exportRows, List.mem_cons, List.mem_flatMap] at hr
    rcases hr with rfl | ⟨cat, hcat, hrow⟩
    · simpa using hps
    · exact absurd (hsent ▸ mem_categoryRows_Category cat r hrow).symm
        (hnames cat hcat)

/-- Witness for C10: a lone sentinel row with an empty Cause cell, and
the concrete empty-statement diagram. -/
theorem import_empty_ps_defaults_witness :
    (parseExcelData [sentinelEmptyRow]).problemStatement = "Problem Statement" ∧
    (parseExcelData (exportRows emptyPsState)).problemStatement = "Problem Statement" :=
  ⟨import_empty_ps_defaults.1 _ (by decide),
   import_empty_ps_defaults.2 emptyPsState (by decide) (by decide)⟩

/-! ## Claim C9: causes merge by name, subcauses never do -/

/-- A row carrying a Subcause value appends exactly one subcause to the
cause it lands on. -/
theorem findOrCreateCause_subTotal (row : Row) (h : row.Subcause ≠ "") :
    ∀ (ks : List Cause) (n : Nat),
      causesSubTotal (findOrCreateCause row n ks).1 = causesSubTotal ks + 1 := by
  intro ks
  induction ks with
  | nil =>
      intro n
      simp [findOrCreateCause, applyRowToCause, h, mkCause, mkSubcause, causesSubTotal]
  | cons c cs ih =>
      intro n
      by_cases hm : c.name = row.Cause
      · simp [findOrCreateCause, hm, applyRowToCause, h, causesSubTotal]
        omega
      · simp only [findOrCreateCause, if_neg hm, causesSubTotal, List.map_cons,
          List.sum_cons]
        have := ih n
        simp only [causesSubTotal] at this
        omega

/-- A row carrying a Subcause value adds exactly one subcause to the
category list, provided its Category name is present. -/
theorem updateFirstCat_subTotal (row : Row) (h : row.Subcause ≠ "") :
    ∀ (cs : List Category) (n : Nat), row.Category ∈ cs.map Category.name →
      catsSubTotal (updateFirstCat row n cs).1 = catsSubTotal cs + 1 := by
  intro cs
  induction cs with
  | nil => intro n hmem; simp at hmem
  | cons c cs ih =>
      intro n hmem
      by_cases hm : c.name = row.Category
      · simp only [updateFirstCat, if_pos hm, catsSubTotal, List.map_cons, List.sum_cons]
        have := findOrCreateCause_subTotal row h c.causes n
        omega
      · have hmem' : row.Category ∈ cs.map Category.name := by
          rcases List.mem_cons.mp hmem with he | ht
          · exact absurd he.symm hm
          · exact ht
        simp only [updateFirstCat, if_neg hm, catsSubTotal, List.map_cons, List.sum_cons]
        have := ih n hmem'
        simp only [catsSubTotal] at this
        omega

/-- C9.  Two rows with the same Category and Cause names but (any)
Subcause values yield one category holding one cause with two subcause
entities in row order — causes merge by name, subcauses are appended, not
de-duplicated; and, in general, every parsed row carrying a Subcause
value grows the total subcause population by exactly one. -/
theorem import_merges_cause_appends_subcauses :
    (∀ (cn un s1 s2 cm1 cm2 : String) (x1 y1 x2 y2 : Int),
      cn ≠ "PROBLEM STATEMENT" → cn ≠ "" → un ≠ "" → s1 ≠ "" → s2 ≠ "" →
      (parseExcelData
        [Row.mk cn un s1 cm1 x1 y1, Row.mk cn un s2 cm2 x2 y2]).categories.map
          (fun c => (c.name, c.causes.map fun k => (k.name, k.subcauses.map Subcause.name)))
        = [(cn, [(un, [s1, s2])])]) ∧
    (∀ (acc : ParseAcc) (row : Row),
      row.Category ≠ "PROBLEM STATEMENT" → row.Category ≠ "" →
      row.Cause ≠ "" → row.Subcause ≠ "" →
      catsSubTotal (parseRow acc row).categories = catsSubTotal acc.categories + 1) := by
  constructor
  · intro cn un s1 s2 cm1 cm2 x1 y1 x2 y2 h1 h2 h3 h4 h5
    simp [parseExcelData, parseRow, updateFirstCat, findOrCreateCause,
      applyRowToCause, mkCategory, mkCause, mkSubcause, Subcause.shape,
      h1, h2, h3, h4, h5]
  · intro acc row h1 h2 h3 h4
    unfold parseRow
    simp only [if_neg h1, if_neg h2, if_neg h3]
    by_cases hany : acc.categories.any (fun c => c.name == row.Category)
    · simp only [hany, ite_true]
      refine updateFirstCat_subTotal row h4 _ _ ?_
      obtain ⟨c, hc, hcn⟩ := List.any_eq_true.mp hany
      rw [List.mem_map]
      exact ⟨c, hc, (by simpa using hcn)⟩
    · simp only [Bool.not_eq_true] at hany
      simp only [hany, Bool.false_eq_true, ite_false]
      have hmem : row.Category ∈
          (acc.categories ++ [mkCategory acc.nextId row]).map Category.name := by
        simp [mkCategory]
      have := updateFirstCat_subTotal row h4
        (acc.categories ++ [mkCategory acc.nextId row]) (acc.nextId + 1) hmem
      rw [this]
      simp [catsSubTotal, mkCategory, causesSubTotal]

/-- Witness for C9 at concrete names (the two Subcause values equal, to
exhibit that even same-named subcauses are not merged). -/
theorem import_merges_cause_appends_subcauses_witness :
    ((parseExcelData
        [Row.mk "People" "Training" "Gap" "" 1 2,
         Row.mk "People" "Training" "Gap" "" 3 4]).categories.map
          (fun c => (c.name, c.causes.map fun k => (k.name, k.subcauses.map Subcause.name)))
        = [("People", [("Training", ["Gap", "Gap"])])]) ∧
    catsSubTotal (parseRow { problemStatement := "P", categories := [], nextId := 0 }
        (Row.mk "People" "Training" "Gap" "" 1 2)).categories = 1 := by
  have h := import_merges_cause_appends_subcauses
  refine ⟨h.1 "People" "Training" "Gap" "Gap" "" "" 1 2 3 4
      (by decide) (by decide) (by decide) (by decide) (by decide), ?_⟩
  have h2 := h.2 { problemStatement := "P", categories := [], nextId := 0 }
    (Row.mk "People" "Training" "Gap" "" 1 2)
    (by decide) (by decide) (by decide) (by decide)
  simpa [catsSubTotal] using h2

/-! ## Claim C1: export/import round trip

The importer is driven through the exported row list block by block.
`updateFirstCat` / `findOrCreateCause` walk past entries whose names do
not match, so the two lemmas below skip a non-matching prefix. -/

/-- `updateFirstCat` ignores a prefix of categories with other names. -/
theorem updateFirstCat_append (row : Row) (n : Nat) (pre l : List Category)
    (h : ∀ c ∈ pre, c.name ≠ row.Category) :
    updateFirstCat row n (pre ++ l) =
      (pre ++ (updateFirstCat row n l).1, (updateFirstCat row n l).2) := by
  induction pre with
  | nil => simp
  | cons c cs ih =>
      simp only [List.cons_append, updateFirstCat,
        if_neg (h c (List.mem_cons_self c cs))]
      simp [List.append_eq, ih fun d hd => h d (List.mem_cons_of_mem c hd)]

/-- `findOrCreateCause` ignores a prefix of causes with other names. -/
theorem findOrCreateCause_append (row : Row) (n : Nat) (pre l : List Cause)
    (h : ∀ c ∈ pre, c.name ≠ row.Cause) :
    findOrCreateCause row n (pre ++ l) =
      (pre ++ (findOrCreateCause row n l).1, (findOrCreateCause row n l).2) := by
  induction pre with
  | nil => simp
  | cons c cs ih =>
      simp only [List.cons_append, findOrCreateCause,
        if_neg (h c (List.mem_cons_self c cs))]
      simp [List.append_eq, ih fun d hd => h d (List.mem_cons_of_mem c hd)]

/-- Parsing the subcause rows of one exported cause block appends the
re-created subcauses, in order, to the cause being rebuilt (the last
cause of the last category), consuming one fresh id per row. -/
theorem foldl_subRows (scs : List Subcause) :
    ∀ (ps : String) (n : Nat) (pre : List Category) (cat : Category)
      (ks : List Cause) (k : Cause),
      (∀ c ∈ pre, c.name ≠ cat.name) →
      cat.name ≠ "PROBLEM STATEMENT" → cat.name ≠ "" →
      (∀ c ∈ ks, c.name ≠ k.name) → k.name ≠ "" →
      (∀ sc ∈ scs, sc.name ≠ "") →
      List.foldl parseRow
          ⟨ps, pre ++ [{ cat with causes := ks ++ [k] }], n⟩
          (scs.map (subcauseRow cat.name k.name)) =
        ⟨ps, pre ++ [{ cat with causes :=
            ks ++ [{ k with subcauses := k.subcauses ++ importSubs n scs }] }],
          n + scs.length⟩ := by
  induction scs with
  | nil =>
      intro ps n pre cat ks k _ _ _ _ _ _
      simp [importSubs]
  | cons sc rest ih =>
      intro ps n pre cat ks k hpre h1 h2 hks hk hscs
      have hsc1 : sc.name ≠ "" := hscs sc (List.mem_cons_self sc rest)
      have hfc : findOrCreateCause (subcauseRow cat.name k.name sc) n (ks ++ [k]) =
          (ks ++ [{ k with subcauses :=
              k.subcauses ++ [mkSubcause n (subcauseRow cat.name k.name sc)] }],
            n + 1) := by
        rw [findOrCreateCause_append _ _ ks [k]
          (by intro c hc; simpa [subcauseRow] using hks c hc)]
        simp [findOrCreateCause, subcauseRow, applyRowToCause, hsc1]
      simp only [subcauseRow] at hfc
      have hup : updateFirstCat (subcauseRow cat.name k.name sc) n
          (pre ++ [{ cat with causes := ks ++ [k] }]) =
          (pre ++ [{ cat with causes := ks ++ [{ k with subcauses :=
              k.subcauses ++ [mkSubcause n (subcauseRow cat.name k.name sc)] }] }],
            n + 1) := by
        rw [updateFirstCat_append _ _ pre _
          (by intro c hc; simpa [subcauseRow] using hpre c hc)]
        simp [updateFirstCat, subcauseRow, hfc]
      have hstep : parseRow ⟨ps, pre ++ [{ cat with causes := ks ++ [k] }], n⟩
          (subcauseRow cat.name k.name sc) =
          ⟨ps, pre ++ [{ cat with causes := ks ++ [{ k with subcauses :=
              k.subcauses ++ [mkSubcause n (subcauseRow cat.name k.name sc)] }] }],
            n + 1⟩ := by
        unfold parseRow
        simp only [subcauseRow, if_neg h1, if_neg h2]
        have hany : ((pre ++ [{ cat with causes := ks ++ [k] }]).any
            fun c => c.name == cat.name) = true := by
          simp
        simp only [hany, ite_true, if_neg hk]
        simp only [subcauseRow] at hup
        simp [hup]
      rw [List.map_cons, List.foldl_cons, hstep,
        ih ps (n + 1) pre cat ks _ hpre h1 h2 (by simpa using hks) (by simpa using hk)
          (fun q hq => hscs q (List.mem_cons_of_mem sc hq))]
      simp only [ParseAcc.mk.injEq, importSubs, mkSubcause, subcauseRow,
        List.length_cons]
      refine ⟨trivial, ?_, by omega⟩
      simp [List.append_assoc]

/-- Parsing the cause blocks of one exported category appends the
re-created causes, in order, to the category being rebuilt (the last in
the list), consuming one id per cause and one per subcause. -/
theorem foldl_causeBlocks (todo : List Cause) :
    ∀ (ps : String) (n : Nat) (pre : List Category) (cat : Category)
      (done : List Cause),
      (∀ c ∈ pre, c.name ≠ cat.name) →
      cat.name ≠ "PROBLEM STATEMENT" → cat.name ≠ "" →
      (todo.map Cause.name).Nodup →
      (∀ k ∈ todo, k.name ≠ "" ∧ ∀ sc ∈ k.subcauses, sc.name ≠ "") →
      (∀ d ∈ done, ∀ k ∈ todo, d.name ≠ k.name) →
      List.foldl parseRow ⟨ps, pre ++ [{ cat with causes := done }], n⟩
          (todo.flatMap (causeRows cat.name)) =
        ⟨ps, pre ++ [{ cat with causes := done ++ importCauses n todo }],
          n + (todo.map Cause.idCount).sum⟩ := by
  induction todo with
  | nil =>
      intro ps n pre cat done _ _ _ _ _ _
      simp [importCauses]
  | cons k rest ih =>
      intro ps n pre cat done hpre h1 h2 hnodup hgood hdisj
      have hkname : k.name ≠ "" := (hgood k (List.mem_cons_self k rest)).1
      have hksubs : ∀ sc ∈ k.subcauses, sc.name ≠ "" :=
        (hgood k (List.mem_cons_self k rest)).2
      have hdonek : ∀ d ∈ done, d.name ≠ k.name :=
        fun d hd => hdisj d hd k (List.mem_cons_self k rest)
      have hfcnil : findOrCreateCause
          ({ Category := cat.name, Cause := k.name, Subcause := "",
             Comments := k.comment, X := k.x, Y := k.y } : Row) n [] =
          ([⟨freshId n, k.name, k.x, k.y, k.comment, []⟩], n + 1) := by
        simp only [findOrCreateCause, mkCause, applyRowToCause]
        by_cases hc : k.comment = "" <;> simp [hc]
      have hfc : findOrCreateCause
          ({ Category := cat.name, Cause := k.name, Subcause := "",
             Comments := k.comment, X := k.x, Y := k.y } : Row) n done =
          (done ++ [⟨freshId n, k.name, k.x, k.y, k.comment, []⟩], n + 1) := by
        have hap := findOrCreateCause_append
          ({ Category := cat.name, Cause := k.name, Subcause := "",
             Comments := k.comment, X := k.x, Y := k.y } : Row) n done []
          (by intro c hc; simpa using hdonek c hc)
        rw [List.append_nil] at hap
        rw [hap, hfcnil]
      have hstep : parseRow ⟨ps, pre ++ [{ cat with causes := done }], n⟩
          ({ Category := cat.name, Cause := k.name, Subcause := "",
             Comments := k.comment, X := k.x, Y := k.y } : Row) =
          ⟨ps, pre ++ [{ cat with causes :=
              done ++ [⟨freshId n, k.name, k.x, k.y, k.comment, []⟩] }], n + 1⟩ := by
        unfold parseRow
        simp only [if_neg h1, if_neg h2]
        have hany : ((pre ++ [{ cat with causes := done }]).any
            fun c => c.name == cat.name) = true := by
          simp
        have hup := updateFirstCat_append
          ({ Category := cat.name, Cause := k.name, Subcause := "",
             Comments := k.comment, X := k.x, Y := k.y } : Row) n pre
          [{ cat with causes := done }]
          (by intro c hc; simpa using hpre c hc)
        simp only [hany, ite_true, if_neg hkname, hup]
        simp [updateFirstCat, hfc]
      have hsub := foldl_subRows k.subcauses ps (n + 1) pre cat done
        ⟨freshId n, k.name, k.x, k.y, k.comment, []⟩
        hpre h1 h2 (by simpa using hdonek) (by simpa using hkname) hksubs
      have hsub' : List.foldl parseRow
          ⟨ps, pre ++ [{ cat with causes :=
              done ++ [⟨freshId n, k.name, k.x, k.y, k.comment, []⟩] }], n + 1⟩
          (k.subcauses.map (subcauseRow cat.name k.name)) =
          ⟨ps, pre ++ [{ cat with causes := done ++ [importCause n k] }],
            n + 1 + k.subcauses.length⟩ := by
        rw [hsub]
        simp [importCause]
      have hih := ih ps (n + 1 + k.subcauses.length) pre cat
        (done ++ [importCause n k])
        hpre h1 h2 (by simpa using hnodup.of_cons)
        (fun q hq => hgood q (List.mem_cons_of_mem k hq))
        ?_
      · rw [List.flatMap_cons, List.foldl_append]
        have hcr : causeRows cat.name k =
            ({ Category := cat.name, Cause := k.name, Subcause := "",
               Comments := k.comment, X := k.x, Y := k.y } : Row)
              :: k.subcauses.map (subcauseRow cat.name k.name) := rfl
        rw [hcr, List.foldl_cons, hstep, hsub', hih]
        simp only [ParseAcc.mk.injEq, importCauses, Cause.idCount,
          List.map_cons, List.sum_cons]
        refine ⟨trivial, ?_, by omega⟩
        simp [List.append_assoc, Nat.add_assoc]
      · intro d hd q hq
        rcases List.mem_append.mp hd with hdl | hdr
        · exact hdisj d hdl q (List.mem_cons_of_mem k hq)
        · have : d = importCause n k := by simpa using hdr
          subst this
          have hknotin : k.name ∉ rest.map Cause.name := by
            have := hnodup
            rw [List.map_cons, List.nodup_cons] at this
            exact this.1
          intro habs
          exact hknotin (habs ▸ List.mem_map_of_mem Cause.name hq)

/-- Parsing the category blocks of an export appends the re-created
categories, in order, to the categories parsed so far. -/
theorem foldl_categoryBlocks (todo : List Category) :
    ∀ (ps : String) (n : Nat) (done : List Category),
      (todo.map Category.name).Nodup →
      (∀ c ∈ todo, c.name ≠ "" ∧ c.name ≠ "PROBLEM STATEMENT" ∧
        (c.causes.map Cause.name).Nodup ∧
        ∀ k ∈ c.causes, k.name ≠ "" ∧ ∀ sc ∈ k.subcauses, sc.name ≠ "") →
      (∀ d ∈ done, ∀ c ∈ todo, d.name ≠ c.name) →
      List.foldl parseRow ⟨ps, done, n⟩ (todo.flatMap categoryRows) =
        ⟨ps, done ++ importCats n todo,
          n + (todo.map Category.idCount).sum⟩ := by
  induction todo with
  | nil =>
      intro ps n done _ _ _
      simp [importCats]
  | cons c rest ih =>
      intro ps n done hnodup hgood hdisj
      have hc := hgood c (List.mem_cons_self c rest)
      have hstep : parseRow ⟨ps, done, n⟩
          ({ Category := c.name, Cause := "", Subcause := "",
             Comments := "", X := c.x, Y := c.y } : Row) =
          ⟨ps, done ++ [⟨freshId n, c.name, c.x, c.y, none, []⟩], n + 1⟩ := by
        unfold parseRow
        simp only [if_neg hc.2.1, if_neg hc.1]
        have hany : (done.any fun q => q.name == c.name) = false := by
          rw [List.any_eq_false]
          intro d hd
          simpa using hdisj d hd c (List.mem_cons_self c rest)
        simp [hany, mkCategory]
      have hcb := foldl_causeBlocks c.causes ps (n + 1) done
        (⟨freshId n, c.name, c.x, c.y, none, []⟩ : Category) []
        (by intro d hd; simpa using hdisj d hd c (List.mem_cons_self c rest))
        (by simpa using hc.2.1) (by simpa using hc.1)
        (by simpa using hc.2.2.1) (by simpa using hc.2.2.2)
        (by simp)
      have hcb' : List.foldl parseRow
          ⟨ps, done ++ [⟨freshId n, c.name, c.x, c.y, none, []⟩], n + 1⟩
          (c.causes.flatMap (causeRows c.name)) =
          ⟨ps, done ++ [importCategory n c],
            n + 1 + (c.causes.map Cause.idCount).sum⟩ := by
        simpa [importCategory] using hcb
      have hih := ih ps (n + 1 + (c.causes.map Cause.idCount).sum)
        (done ++ [importCategory n c])
        (by simpa using hnodup.of_cons)
        (fun q hq => hgood q (List.mem_cons_of_mem c hq))
        ?_
      · rw [List.flatMap_cons, List.foldl_append]
        have hcr : categoryRows c =
            ({ Category := c.name, Cause := "", Subcause := "",
               Comments := "", X := c.x, Y := c.y } : Row)
              :: c.causes.flatMap (causeRows c.name) := rfl
        rw [hcr, List.foldl_cons, hstep, hcb', hih]
        simp only [ParseAcc.mk.injEq, importCats, Category.idCount,
          List.map_cons, List.sum_cons]
        refine ⟨trivial, ?_, by omega⟩
        simp [List.append_assoc, Nat.add_assoc]
      · intro d hd q hq
        rcases List.mem_append.mp hd with hdl | hdr
        · exact hdisj d hdl q (List.mem_cons_of_mem c hq)
        · have : d = importCategory n c := by simpa using hdr
          subst this
          have hcnotin : c.name ∉ rest.map Category.name := by
            have := hnodup
            rw [List.map_cons, List.nodup_cons] at this
            exact this.1
          intro habs
          have : c.name = q.name := by simpa [importCategory] using habs
          exact hcnotin (this ▸ List.mem_map_of_mem Category.name hq)

/-- Re-created subcauses have the same identity-erased view. -/
theorem importSubs_shape (scs : List Subcause) :
    ∀ n : Nat, (importSubs n scs).map Subcause.shape = scs.map Subcause.shape := by
  induction scs with
  | nil => intro n; simp [importSubs]
  | cons sc rest ih => intro n; simp [importSubs, Subcause.shape, ih (n + 1)]

/-- Re-created causes have the same identity-erased view. -/
theorem importCauses_shape (ks : List Cause) :
    ∀ n : Nat, (importCauses n ks).map Cause.shape = ks.map Cause.shape := by
  induction ks with
  | nil => intro n; simp [importCauses]
  | cons k rest ih =>
      intro n
      simp [importCauses, importCause, Cause.shape, importSubs_shape, ih]

/-- Re-created categories have the same identity-erased view. -/
theorem importCats_shape (cs : List Category) :
    ∀ n : Nat, (importCats n cs).map Category.shape = cs.map Category.shape := by
  induction cs with
  | nil => intro n; simp [importCats]
  | cons c rest ih =>
      intro n
      simp [importCats, importCategory, Category.shape, importCauses_shape, ih]

/-- C1 (amended).  For a diagram with a non-empty problem statement,
pairwise-distinct non-empty category names different from the sentinel,
non-empty cause names unique within each category, and non-empty subcause
names, importing the rows built by export reconstructs the same problem
statement and, at every level, the same names, coordinates, comments and
sibling order (`Category.shape` erases only ids and the `spineX` field,
which the basic six-column export does not carry). -/
theorem export_import_roundtrip (s : DiagramState)
    (h1 : s.problemStatement ≠ "")
    (h2 : (s.categories.map Category.name).Nodup)
    (h3 : ∀ c ∈ s.categories, c.name ≠ "" ∧ c.name ≠ "PROBLEM STATEMENT")
    (h4 : ∀ c ∈ s.categories, (c.causes.map Cause.name).Nodup)
    (h5 : ∀ c ∈ s.categories, ∀ k ∈ c.causes,
      k.name ≠ "" ∧ ∀ sc ∈ k.subcauses, sc.name ≠ "") :
    (parseExcelData (exportRows s)).problemStatement = s.problemStatement ∧
    (parseExcelData (exportRows s)).categories.map Category.shape =
      s.categories.map Category.shape := by
  have hsent : parseRow ⟨"Problem Statement", [], 0⟩
      ({ Category := "PROBLEM STATEMENT", Cause := s.problemStatement,
         Subcause := "", Comments := "", X := 800, Y := 250 } : Row) =
      ⟨s.problemStatement, [], 0⟩ := by
    simp [parseRow, h1]
  have hmain := foldl_categoryBlocks s.categories s.problemStatement 0 []
    h2
    (fun c hc => ⟨(h3 c hc).1, (h3 c hc).2, h4 c hc, h5 c hc⟩)
    (by simp)
  unfold parseExcelData exportRows
  rw [List.foldl_cons, hsent, hmain]
  exact ⟨rfl, by simpa using importCats_shape s.categories 0⟩

/-- Counterexample to C1 as stated: the empty diagram with an empty
problem statement has (vacuously) unique cause names per category, yet
the round trip replaces the empty problem statement by the default. -/
theorem export_import_roundtrip_counterexample :
    (∀ c ∈ emptyPsState.categories, (c.causes.map Cause.name).Nodup) ∧
    (parseExcelData (exportRows emptyPsState)).problemStatement ≠
      emptyPsState.problemStatement := by
  constructor
  · intro c hc
    simp [emptyPsState] at hc
  · decide

/-- Witness for the amended C1 at a concrete two-category diagram. -/
theorem export_import_roundtrip_witness :
    sampleState.problemStatement ≠ "" ∧
    (parseExcelData (exportRows sampleState)).problemStatement =
      sampleState.problemStatement ∧
    (parseExcelData (exportRows sampleState)).categories.map Category.shape =
      sampleState.categories.map Category.shape := by
  have h := export_import_roundtrip sampleState (by decide) (by decide)
    (by decide) (by decide) (by decide)
  exact ⟨by decide, h.1, h.2⟩

/-! ## Claim C6: id uniqueness along Add command sequences -/

/-- `ADD_CAUSE` over a duplicate-free id population either inserts
exactly the fresh id (some category matched) or changes nothing. -/
theorem addCause_flat_perm (cid fid : String) (rx ry : Int) :
    ∀ l : List Category, (l.flatMap Category.ids).Nodup →
      List.Perm
        ((l.map fun c =>
          if c.id = cid then
            { c with causes := c.causes ++
                [{ id := fid, name := "New Cause", x := c.x + rx, y := c.y + ry,
                   comment := "", subcauses := [] }] }
          else c).flatMap Category.ids)
        (fid :: l.flatMap Category.ids) ∨
      ((l.map fun c =>
          if c.id = cid then
            { c with causes := c.causes ++
                [{ id := fid, name := "New Cause", x := c.x + rx, y := c.y + ry,
                   comment := "", subcauses := [] }] }
          else c).flatMap Category.ids) = l.flatMap Category.ids := by
  intro l
  induction l with
  | nil => intro _; right; rfl
  | cons c rest ih =>
      intro h
      rw [List.flatMap_cons] at h
      have hdisj := (List.nodup_append.mp h).2.2
      have hrest := (List.nodup_append.mp h).2.1
      by_cases hc : c.id = cid
      · have hrestid : ∀ d ∈ rest, d.id ≠ cid := by
          intro d hd habs
          have hm1 : cid ∈ c.ids := by
            rw [← hc]; simp [Category.ids]
          have hm2 : cid ∈ rest.flatMap Category.ids := by
            rw [← habs]
            exact List.mem_flatMap.mpr ⟨d, hd, by simp [Category.ids]⟩
          exact hdisj hm1 hm2
        have hmap : (rest.map fun c =>
            if c.id = cid then
              { c with causes := c.causes ++
                  [{ id := fid, name := "New Cause", x := c.x + rx, y := c.y + ry,
                     comment := "", subcauses := [] }] }
            else c) = rest :=
          map_eq_self_of _ _ fun d hd => if_neg (hrestid d hd)
        left
        rw [List.map_cons, if_pos hc, hmap, List.flatMap_cons]
        have hids : Category.ids { c with causes := c.causes ++
            [{ id := fid, name := "New Cause", x := c.x + rx, y := c.y + ry,
               comment := "", subcauses := [] }] } = Category.ids c ++ [fid] := by
          simp [Category.ids, Cause.ids]
        rw [hids]
        have := @List.perm_middle String fid (Category.ids c)
          (rest.flatMap Category.ids)
        simpa [List.append_assoc] using this
      · rw [List.map_cons, if_neg hc, List.flatMap_cons]
        rcases ih hrest with hperm | heq
        · left
          refine ((List.Perm.append_left (Category.ids c) hperm).trans ?_)
          have := @List.perm_middle String fid (Category.ids c)
            (rest.flatMap Category.ids)
          simpa [List.append_assoc] using this
        · right
          rw [heq, List.flatMap_cons]

/-- `ADD_SUBCAUSE` inside one category's cause list: either inserts
exactly the fresh id or changes nothing. -/
theorem addSubcause_causes_perm (ki fid : String) (rx ry : Int) :
    ∀ ks : List Cause, (ks.flatMap Cause.ids).Nodup →
      List.Perm
        ((ks.map fun k =>
          if k.id = ki then
            { k with subcauses := k.subcauses ++
                [{ id := fid, name := "New Subcause", x := k.x + rx, y := k.y + ry,
                   comment := "" }] }
          else k).flatMap Cause.ids)
        (fid :: ks.flatMap Cause.ids) ∨
      ((ks.map fun k =>
          if k.id = ki then
            { k with subcauses := k.subcauses ++
                [{ id := fid, name := "New Subcause", x := k.x + rx, y := k.y + ry,
                   comment := "" }] }
          else k).flatMap Cause.ids) = ks.flatMap Cause.ids := by
  intro ks
  induction ks with
  | nil => intro _; right; rfl
  | cons k rest ih =>
      intro h
      rw [List.flatMap_cons] at h
      have hdisj := (List.nodup_append.mp h).2.2
      have hrest := (List.nodup_append.mp h).2.1
      by_cases hk : k.id = ki
      · have hrestid : ∀ d ∈ rest, d.id ≠ ki := by
          intro d hd habs
          have hm1 : ki ∈ k.ids := by
            rw [← hk]; simp [Cause.ids]
          have hm2 : ki ∈ rest.flatMap Cause.ids := by
            rw [← habs]
            exact List.mem_flatMap.mpr ⟨d, hd, by simp [Cause.ids]⟩
          exact hdisj hm1 hm2
        have hmap : (rest.map fun k =>
            if k.id = ki then
              { k with subcauses := k.subcauses ++
                  [{ id := fid, name := "New Subcause", x := k.x + rx, y := k.y + ry,
                     comment := "" }] }
            else k) = rest :=
          map_eq_self_of _ _ fun d hd => if_neg (hrestid d hd)
        left
        rw [List.map_cons, if_pos hk, hmap, List.flatMap_cons]
        have hids : Cause.ids { k with subcauses := k.subcauses ++
            [{ id := fid, name := "New Subcause", x := k.x + rx, y := k.y + ry,
               comment := "" }] } = Cause.ids k ++ [fid] := by
          simp [Cause.ids]
        rw [hids]
        have := @List.perm_middle String fid (Cause.ids k)
          (rest.flatMap Cause.ids)
        simpa [List.append_assoc] using this
      · rw [List.map_cons, if_neg hk, List.flatMap_cons]
        rcases ih hrest with hperm | heq
        · left
          refine ((List.Perm.append_left (Cause.ids k) hperm).trans ?_)
          have := @List.perm_middle String fid (Cause.ids k)
            (rest.flatMap Cause.ids)
          simpa [List.append_assoc] using this
        · right
          rw [heq, List.flatMap_cons]

/-- `ADD_SUBCAUSE` over the category list: either inserts exactly the
fresh id or changes nothing. -/
theorem addSubcause_flat_perm (cid ki fid : String) (rx ry : Int) :
    ∀ l : List Category, (l.flatMap Category.ids).Nodup →
      List.Perm
        ((l.map fun c =>
          if c.id = cid then
            { c with causes := c.causes.map fun k =>
                if k.id = ki then
                  { k with subcauses := k.subcauses ++
                      [{ id := fid, name := "New Subcause", x := k.x + rx,
                         y := k.y + ry, comment := "" }] }
                else k }
          else c).flatMap Category.ids)
        (fid :: l.flatMap Category.ids) ∨
      ((l.map fun c =>
          if c.id = cid then
            { c with causes := c.causes.map fun k =>
                if k.id = ki then
                  { k with subcauses := k.subcauses ++
                      [{ id := fid, name := "New Subcause", x := k.x + rx,
                         y := k.y + ry, comment := "" }] }
                else k }
          else c).flatMap Category.ids) = l.flatMap Category.ids := by
  intro l
  induction l with
  | nil => intro _; right; rfl
  | cons c rest ih =>
      intro h
      rw [List.flatMap_cons] at h
      have hdisj := (List.nodup_append.mp h).2.2
      have hrest := (List.nodup_append.mp h).2.1
      have hself := (List.nodup_append.mp h).1
      by_cases hc : c.id = cid
      · have hrestid : ∀ d ∈ rest, d.id ≠ cid := by
          intro d hd habs
          have hm1 : cid ∈ c.ids := by
            rw [← hc]; simp [Category.ids]
          have hm2 : cid ∈ rest.flatMap Category.ids := by
            rw [← habs]
            exact List.mem_flatMap.mpr ⟨d, hd, by simp [Category.ids]⟩
          exact hdisj hm1 hm2
        have hmap : (rest.map fun c =>
            if c.id = cid then
              { c with causes := c.causes.map fun k =>
                  if k.id = ki then
                    { k with subcauses := k.subcauses ++
                        [{ id := fid, name := "New Subcause", x := k.x + rx,
                           y := k.y + ry, comment := "" }] }
                  else k }
            else c) = rest :=
          map_eq_self_of _ _ fun d hd => if_neg (hrestid d hd)
        rw [List.map_cons, if_pos hc, hmap, List.flatMap_cons]
        have hcnodup : (c.causes.flatMap Cause.ids).Nodup := by
          have := hself
          rw [Category.ids, List.nodup_cons] at this
          exact this.2
        rcases addSubcause_causes_perm ki fid rx ry c.causes hcnodup with hperm | heq
        · left
          have hids : Category.ids { c with causes := c.causes.map fun k =>
              if k.id = ki then
                { k with subcauses := k.subcauses ++
                    [{ id := fid, name := "New Subcause", x := k.x + rx,
                       y := k.y + ry, comment := "" }] }
              else k } = c.id :: (c.causes.map fun k =>
              if k.id = ki then
                { k with subcauses := k.subcauses ++
                    [{ id := fid, name := "New Subcause", x := k.x + rx,
                       y := k.y + ry, comment := "" }] }
              else k).flatMap Cause.ids := rfl
          rw [hids]
          have step1 : List.Perm
              ((c.id :: (c.causes.map fun k =>
                if k.id = ki then
                  { k with subcauses := k.subcauses ++
                      [{ id := fid, name := "New Subcause", x := k.x + rx,
                         y := k.y + ry, comment := "" }] }
                else k).flatMap Cause.ids) ++ rest.flatMap Category.ids)
              ((c.id :: fid :: c.causes.flatMap Cause.ids) ++
                rest.flatMap Category.ids) :=
            List.Perm.append_right _ ((hperm).cons c.id)
          refine step1.trans ?_
          simp only [List.cons_append]
          refine (List.Perm.swap fid c.id _).trans ?_
          simp [Category.ids]
        · right
          simp only [Category.ids] at heq ⊢
          rw [heq]
          simp [Category.ids]
      · rw [List.map_cons, if_neg hc, List.flatMap_cons]
        rcases ih hrest with hperm | heq
        · left
          refine ((List.Perm.append_left (Category.ids c) hperm).trans ?_)
          have := @List.perm_middle String fid (Category.ids c)
            (rest.flatMap Category.ids)
          simpa [List.append_assoc] using this
        · right
          rw [heq, List.flatMap_cons]

/-- C6.  Along any command sequence of AddCategory / AddCause /
AddSubcause from the initial state, with the id generator supplying ids
fresh for the current state, no two entities in the whole diagram share
an id. -/
theorem reachable_allIds_nodup {s : DiagramState} (h : Reachable s) :
    (allIds s).Nodup := by
  induction h with
  | init => simp [allIds, initialState]
  | @addCategory s fid rx ry _ hf ih =>
      have heq : allIds (fishboneReducer s (.addCategory fid rx ry)) =
          allIds s ++ [fid] := by
        simp [fishboneReducer, allIds, Category.ids]
      rw [heq]
      exact nodup_insert_middle (by simpa using ih) (by simpa using hf)
  | @addCause s cid fid rx ry _ hf ih =>
      rcases addCause_flat_perm cid fid rx ry s.categories ih with hperm | heq
      · have : (allIds (fishboneReducer s (.addCause cid fid rx ry))).Nodup ↔
            (fid :: allIds s).Nodup := List.Perm.nodup_iff hperm
        exact this.mpr (List.nodup_cons.mpr ⟨hf, ih⟩)
      · have : allIds (fishboneReducer s (.addCause cid fid rx ry)) = allIds s := heq
        rw [this]
        exact ih
  | @addSubcause s cid ki fid rx ry _ hf ih =>
      rcases addSubcause_flat_perm cid ki fid rx ry s.categories ih with hperm | heq
      · have : (allIds (fishboneReducer s (.addSubcause cid ki fid rx ry))).Nodup ↔
            (fid :: allIds s).Nodup := List.Perm.nodup_iff hperm
        exact this.mpr (List.nodup_cons.mpr ⟨hf, ih⟩)
      · have : allIds (fishboneReducer s (.addSubcause cid ki fid rx ry)) =
            allIds s := heq
        rw [this]
        exact ih

/-- Witness for C6: a three-step reachable state with duplicate-free
ids. -/
theorem reachable_allIds_nodup_witness :
    (allIds (fishboneReducer (fishboneReducer (fishboneReducer initialState
        (.addCategory "a" 1 2)) (.addCause "a" "b" 3 4))
        (.addSubcause "a" "b" "c" 5 6))).Nodup := by
  refine reachable_allIds_nodup
    (Reachable.addSubcause (Reachable.addCause
      (Reachable.addCategory Reachable.init ?_) ?_) ?_) <;> decide

end Fishbone
